import Mathlib

/-!
Shallow embedding of pkg/updatechecker/updatechecker.go (kwsorensen/kots).

The package schedules per-application update checks (Configure, Stop, Start)
and runs them (CheckForUpdates). Collaborator calls (store, license sync,
upstream, deploy) are modelled by an oracle environment that fixes the result
of each call site; the embedded functions return the Go return value together
with a trace of the externally visible effects, so that claims about which
collaborators were invoked become statements about the trace.
-/

/-- Result of a fallible Go collaborator call: a value or a non-nil error. -/
inductive Res (α : Type) where
  | ok : α → Res α
  | err : String → Res α
deriving DecidableEq

/-- Model of errors.Wrap from github.com/pkg/errors: wrapping a nil error
yields nil; wrapping a non-nil error prepends the message. -/
def errWrap : Option String → String → Option String
  | none, _ => none
  | some e, msg => some (msg ++ ": " ++ e)

/-- The fields of the App record that the update checker reads. -/
structure App where
  id : String
  slug : String
  isAirgap : Bool
  updateCheckerSpec : String
  currentSequence : Int
deriving DecidableEq

/-- The kots kinds loaded from the current version archive, reduced to the
fields CheckForUpdates reads. -/
structure KotsKinds where
  updateCursor : String
  channelID : String
  channelName : String
  versionLabel : String
  appSlug : String
deriving DecidableEq

/-- An upstream release descriptor; the cursor is its position in the stream. -/
structure Update where
  cursor : Nat
deriving DecidableEq

/-- A stored version record with its assigned sequence number. -/
structure AppVersion where
  sequence : Int
deriving DecidableEq

/-- A downstream cluster target. -/
structure Downstream where
  clusterID : String
deriving DecidableEq

/-- Oracle for every collaborator call CheckForUpdates makes, in source order.
Each field fixes the result of the corresponding call site.
lastUpdateAtTime models app.LastUpdateAtTime: none means the write succeeded,
some e means it failed with error e. -/
structure CheckEnv where
  getTaskStatus : Res (String × String)
  clearTaskStatus : Res Unit
  getApp : Res App
  licenseSync : Res Unit
  getAppReload : Res App
  tempDir : Res String
  getAppVersionArchive : Res Unit
  loadKotsKinds : Res KotsKinds
  getLatestLicense : Res Unit
  getUpdates : Res (List Update)
  lastUpdateAtTime : Option String
  getVersions : Res (List AppVersion)
  listDownstreams : Res (List Downstream)
  getCurrentParentSequence : Res Int
  deployVersion : Res Unit
  setTaskStatus : Res Unit

/-- Externally visible effects of the synchronous body of CheckForUpdates. -/
inductive Effect where
  | licenseSync
  | loadCurrentArchive
  | queryUpstream
  | writeLastChecked
  | listVersions
  | listDownstreamTargets
  | readParentSequence
  | deployInitiated (sequence : Int)
  | setTaskRunning (count : Int)
  | spawnStaging
deriving DecidableEq

/-- Go-level outcome of CheckForUpdates: a normal (count, error) return, or a
runtime panic from an out-of-bounds slice index. -/
inductive Outcome where
  | ret (count : Int) (error : Option String)
  | indexOutOfRange
deriving DecidableEq

/-- Return value and effect trace of the synchronous body of CheckForUpdates. -/
structure CheckResult where
  outcome : Outcome
  effects : List Effect
deriving DecidableEq

/-- Lines 228 to 302 of updatechecker.go: the code after GetUpdates and the
last-updated-at write have succeeded, starting from the len(updates) == 0
test. eff is the effect trace accumulated by the earlier steps.
In the zero-updates deploy path the source reads downstreams[0] without a
bounds check, which in Go panics on an empty slice; that is the
indexOutOfRange outcome. -/
def handleUpdates (env : CheckEnv) (deploy : Bool) (updates : List Update)
    (eff : List Effect) : CheckResult :=
  if updates.length = 0 then
    if deploy = false then ⟨.ret 0 none, eff⟩
    else
      match env.getVersions with
      | .err e => ⟨.ret 0 (errWrap (some e) "failed to list app versions"), eff ++ [.listVersions]⟩
      | .ok allVersions =>
        match allVersions.getLast? with
        | none => ⟨.ret 0 (some "no versions found"), eff ++ [.listVersions]⟩
        | some latestVersion =>
          match env.listDownstreams with
          | .err e =>
            ⟨.ret 0 (errWrap (some e) "failed to list downstreams for app"),
              eff ++ [.listVersions, .listDownstreamTargets]⟩
          | .ok downstreams =>
            match downstreams with
            | [] => ⟨.indexOutOfRange, eff ++ [.listVersions, .listDownstreamTargets]⟩
            | _ :: _ =>
              match env.getCurrentParentSequence with
              | .err e =>
                ⟨.ret 0 (errWrap (some e) "failed to get current downstream parent sequence"),
                  eff ++ [.listVersions, .listDownstreamTargets, .readParentSequence]⟩
              | .ok parentSeq =>
                if latestVersion.sequence ≠ parentSeq then
                  match env.deployVersion with
                  | .err e =>
                    ⟨.ret 0 (errWrap (some e) "failed to deploy latest version"),
                      eff ++ [.listVersions, .listDownstreamTargets, .readParentSequence,
                        .deployInitiated latestVersion.sequence]⟩
                  | .ok _ =>
                    ⟨.ret 0 none,
                      eff ++ [.listVersions, .listDownstreamTargets, .readParentSequence,
                        .deployInitiated latestVersion.sequence]⟩
                else
                  ⟨.ret 0 none, eff ++ [.listVersions, .listDownstreamTargets, .readParentSequence]⟩
  else
    match env.setTaskStatus with
    | .err e => ⟨.ret 0 (errWrap (some e) "failed to set task status"), eff⟩
    | .ok _ =>
      ⟨.ret (Int.ofNat updates.length) none,
        eff ++ [.setTaskRunning (Int.ofNat updates.length), .spawnStaging]⟩

/-- Lines 145 to 302 of updatechecker.go: the synchronous body of
CheckForUpdates. The call at line 224 wraps the err variable left over from
GetUpdates, which is nil at that point, so errWrap receives none there; this
mirrors the source exactly. -/
def checkForUpdates (env : CheckEnv) (deploy : Bool) : CheckResult :=
  match env.getTaskStatus with
  | .err e => ⟨.ret 0 (errWrap (some e) "failed to get task status"), []⟩
  | .ok currentStatusPair =>
    if currentStatusPair.1 = "running" then ⟨.ret 0 none, []⟩
    else
      match env.clearTaskStatus with
      | .err e => ⟨.ret 0 (errWrap (some e) "failed to clear task status"), []⟩
      | .ok _ =>
        match env.getApp with
        | .err e => ⟨.ret 0 (errWrap (some e) "failed to get app"), []⟩
        | .ok _ =>
          match env.licenseSync with
          | .err e => ⟨.ret 0 (errWrap (some e) "failed to sync license"), [.licenseSync]⟩
          | .ok _ =>
            match env.getAppReload with
            | .err e => ⟨.ret 0 (errWrap (some e) "failed to get app"), [.licenseSync]⟩
            | .ok _ =>
              match env.tempDir with
              | .err e => ⟨.ret 0 (errWrap (some e) "failed to create temp dir"), [.licenseSync]⟩
              | .ok _ =>
                match env.getAppVersionArchive with
                | .err e =>
                  ⟨.ret 0 (errWrap (some e) "failed to get app version archive"),
                    [.licenseSync, .loadCurrentArchive]⟩
                | .ok _ =>
                  match env.loadKotsKinds with
                  | .err e =>
                    ⟨.ret 0 (errWrap (some e) "failed to load kotskinds from path"),
                      [.licenseSync, .loadCurrentArchive]⟩
                  | .ok _ =>
                    match env.getLatestLicense with
                    | .err e =>
                      ⟨.ret 0 (errWrap (some e) "failed to get latest license"),
                        [.licenseSync, .loadCurrentArchive]⟩
                    | .ok _ =>
                      match env.getUpdates with
                      | .err e =>
                        ⟨.ret 0 (errWrap (some e) "failed to get updates"),
                          [.licenseSync, .loadCurrentArchive, .queryUpstream]⟩
                      | .ok updates =>
                        match env.lastUpdateAtTime with
                        | some _ =>
                          ⟨.ret 0 (errWrap none "failed to update last updated at time"),
                            [.licenseSync, .loadCurrentArchive, .queryUpstream, .writeLastChecked]⟩
                        | none =>
                          handleUpdates env deploy updates
                            [.licenseSync, .loadCurrentArchive, .queryUpstream, .writeLastChecked]

/-! ## Staging pipeline

Lines 275 to 300 of updatechecker.go: the goroutine spawned by CheckForUpdates
once at least one release was found. It walks the discovered updates in slice
order, downloading each; a failed download is logged and the loop continues;
after a successful download of the release at the final index, if the deploy
flag was set, DeployVersion is invoked and an async preflight report spawned. -/

/-- Observable events of one staging-pipeline run, in the order they occur. -/
inductive PipeEffect where
  | downloadAttempt (cursor : Nat)
  | logDownloadError (cursor : Nat)
  | deployAttempt (sequence : Int)
  | reportAppInfo (sequence : Int)
deriving DecidableEq

/-- The body of the goroutine for loop. index is the position of the head of
rest in the original slice, total the length of the original slice; download
gives the result of upstream.DownloadUpdate for each index (the assigned
sequence on success). -/
def stagingLoopAux (total : Nat) (deploy : Bool) (download : Nat → Res Int) :
    Nat → List Update → List PipeEffect
  | _, [] => []
  | index, u :: rest =>
    match download index with
    | .err _ =>
      .downloadAttempt u.cursor :: .logDownloadError u.cursor ::
        stagingLoopAux total deploy download (index + 1) rest
    | .ok sequence =>
      if deploy = true ∧ index = total - 1 then
        .downloadAttempt u.cursor :: .deployAttempt sequence :: .reportAppInfo sequence ::
          stagingLoopAux total deploy download (index + 1) rest
      else
        .downloadAttempt u.cursor :: stagingLoopAux total deploy download (index + 1) rest

/-- The full staging pipeline run over a discovered batch. -/
def stagingPipeline (updates : List Update) (deploy : Bool) (download : Nat → Res Int) :
    List PipeEffect :=
  stagingLoopAux updates.length deploy download 0 updates

/-- The cursors whose download was attempted, in trace order. -/
def downloadAttempts : List PipeEffect → List Nat
  | [] => []
  | .downloadAttempt c :: rest => c :: downloadAttempts rest
  | _ :: rest => downloadAttempts rest

/-- Recognizer for deploy events in a pipeline trace. -/
def isDeployAttempt : PipeEffect → Bool
  | .deployAttempt _ => true
  | _ => false

/-! ## Scheduler: Configure, Stop, Start

Lines 24 to 140 of updatechecker.go. The package-level jobs map becomes an
explicit JobsState; each cron.Cron object is a CronJob value carrying an
object identity (objId) so that reuse versus replacement of the underlying
scheduler object is expressible, its entry list, its per-object entry id
counter, and whether it has been started. -/

/-- One installed cron trigger entry. -/
structure CronEntry where
  entryId : Nat
  spec : String
deriving DecidableEq

/-- A cron.Cron object: identity, installed entries, next entry id, running flag. -/
structure CronJob where
  objId : Nat
  entries : List CronEntry
  nextId : Nat
  running : Bool
deriving DecidableEq

/-- The package state: the jobs map plus a counter supplying fresh object
identities for cron.New. -/
structure JobsState where
  jobs : String → Option CronJob
  nextObjId : Nat

/-- Pointwise update of the jobs map. -/
def updateJobs (m : String → Option CronJob) (k : String) (j : CronJob) :
    String → Option CronJob :=
  fun q => if q = k then some j else m q

/-- Oracle for Configure: the store lookup keyed by app id, the wall-clock
minute and hour read by the default-cadence resolution, and whether the cron
library accepts a given spec string in AddFunc. -/
structure ConfigureEnv where
  getApp : String → Res App
  minute : Nat
  hour : Nat
  specValid : String → Bool

/-- Lines 78 to 84 of updatechecker.go: the concrete spec substituted for
the default cadence, built from the current minute and hour modulo 4. -/
def cronSpecEvery4Hours (minuteField hourOffset : Nat) : String :=
  toString minuteField ++ " " ++ toString hourOffset ++ "/4 * * *"

/-- Lines 73 to 84 of updatechecker.go: cadence resolution. none means the
checker is disabled for this app; otherwise the spec handed to AddFunc. -/
def resolveCadence (spec : String) (minute hour : Nat) : Option String :=
  if spec = "@never" ∨ spec = "" then none
  else if spec = "@default" then some (cronSpecEvery4Hours minute (hour % 4))
  else some spec

/-- Lines 129 to 140 of updatechecker.go: Stop halts the job stored for the
app, if any, leaving the map entry and its trigger entries in place. -/
def Stop (appID : String) (st : JobsState) : JobsState :=
  match st.jobs appID with
  | some job =>
    { st with jobs := updateJobs st.jobs appID { job with running := false } }
  | none => st

/-- Lines 55 to 127 of updatechecker.go: Configure. Returns the new state and
the Go error. When a job already exists its entries are removed on the shared
object (visible in the map at once, since the map stores a pointer), then
AddFunc installs the new entry and Start is called; when none exists a fresh
object is created, and it is stored only after AddFunc succeeds. -/
def Configure (env : ConfigureEnv) (appID : String) (st : JobsState) :
    JobsState × Option String :=
  match env.getApp appID with
  | .err e => (st, errWrap (some e) "failed to get app")
  | .ok a =>
    if a.isAirgap = true then (st, none)
    else
      match resolveCadence a.updateCheckerSpec env.minute env.hour with
      | none => (Stop a.id st, none)
      | some cronSpec =>
        match st.jobs a.id with
        | some job =>
          let cleared : CronJob := { job with entries := [] }
          let st1 : JobsState := { st with jobs := updateJobs st.jobs a.id cleared }
          if env.specValid cronSpec = true then
            let started : CronJob :=
              { cleared with
                entries := [{ entryId := cleared.nextId, spec := cronSpec }],
                nextId := cleared.nextId + 1,
                running := true }
            ({ st1 with jobs := updateJobs st1.jobs a.id started }, none)
          else
            (st1, errWrap (some "invalid cron spec") "failed to add func")
        | none =>
          if env.specValid cronSpec = true then
            let started : CronJob :=
              { objId := st.nextObjId,
                entries := [{ entryId := 0, spec := cronSpec }],
                nextId := 1,
                running := true }
            ({ st with
                jobs := updateJobs st.jobs a.id started,
                nextObjId := st.nextObjId + 1 }, none)
          else
            (st, errWrap (some "invalid cron spec") "failed to add func")

/-- Lines 30 to 48 of updatechecker.go: Start configures every non-airgapped
installed app, ignoring per-app Configure errors. -/
def startChecker (env : ConfigureEnv) (appsList : List App) (st : JobsState) : JobsState :=
  appsList.foldl (fun s a => if a.isAirgap = true then s else (Configure env a.id s).1) st

/-! ## Concrete fixtures used by the witnesses -/

/-- A concrete online app. -/
def appA : App :=
  { id := "app-1", slug := "my-app", isAirgap := false,
    updateCheckerSpec := "0 0 * * *", currentSequence := 3 }

/-- Concrete kots kinds for the current version. -/
def kindsA : KotsKinds :=
  { updateCursor := "12", channelID := "chan-1", channelName := "Stable",
    versionLabel := "1.2.3", appSlug := "my-app" }

/-- A baseline oracle in which every collaborator call succeeds, the task
status is idle, and the upstream has no new release. -/
def envBase : CheckEnv :=
  { getTaskStatus := .ok ("", ""),
    clearTaskStatus := .ok (),
    getApp := .ok appA,
    licenseSync := .ok (),
    getAppReload := .ok appA,
    tempDir := .ok "/tmp/kotsadm",
    getAppVersionArchive := .ok (),
    loadKotsKinds := .ok kindsA,
    getLatestLicense := .ok (),
    getUpdates := .ok [],
    lastUpdateAtTime := none,
    getVersions := .ok [{ sequence := 3 }],
    listDownstreams := .ok [{ clusterID := "cluster-1" }],
    getCurrentParentSequence := .ok 3,
    deployVersion := .ok (),
    setTaskStatus := .ok () }

/-! ## Claim theorems -/

/-- C1: while the shared update-download task status reads running, a call to
CheckForUpdates returns (0, nil) at once with an empty effect trace, so in
particular it performs no license sync, no archive load and no upstream
query. -/
theorem checkForUpdates_running_returns_zero_nil (env : CheckEnv) (deploy : Bool)
    (msg : String) (h : env.getTaskStatus = .ok ("running", msg)) :
    checkForUpdates env deploy = ⟨.ret 0 none, []⟩ ∧
    Effect.licenseSync ∉ (checkForUpdates env deploy).effects ∧
    Effect.loadCurrentArchive ∉ (checkForUpdates env deploy).effects ∧
    Effect.queryUpstream ∉ (checkForUpdates env deploy).effects := by
  have hres : checkForUpdates env deploy = ⟨.ret 0 none, []⟩ := by
    unfold checkForUpdates
    rw [h]
    simp
  refine ⟨hres, ?_, ?_, ?_⟩ <;> rw [hres] <;> simp

/-- C1 witness: at a concrete environment whose task status is running the
call returns (0, nil) with no effects. -/
theorem checkForUpdates_running_returns_zero_nil_witness :
    checkForUpdates { envBase with getTaskStatus := .ok ("running", "2 Updates available...") } true
      = ⟨.ret 0 none, []⟩ :=
  (checkForUpdates_running_returns_zero_nil
    { envBase with getTaskStatus := .ok ("running", "2 Updates available...") }
    true "2 Updates available..." rfl).1

/-- Absolute wall-clock minutes t at which a cron spec with the given minute
field and hour offset within a 4-hour period fires: the minute of the hour
equals the minute field and the hour modulo 4 equals the offset. This is the
firing semantics of the specs produced for the default cadence. -/
def firesAt (minuteField hourOffset t : Nat) : Prop :=
  t % 60 = minuteField ∧ (t / 60) % 4 = hourOffset

instance (m hb t : Nat) : Decidable (firesAt m hb t) := by
  unfold firesAt
  infer_instance

/-- C5: resolving the default cadence yields the concrete spec whose minute
field is the current minute and whose hour offset is the current hour modulo
4; resolution depends only on the wall-clock minute and hour, so two
resolutions within the same minute agree; and the produced schedule fires
exactly once every 4 hours: after any firing time the next firing is 240
minutes later. -/
theorem resolveCadence_default (m h : Nat) :
    resolveCadence "@default" m h = some (cronSpecEvery4Hours m (h % 4)) ∧
    (∀ m2 h2, m2 = m → h2 = h →
      resolveCadence "@default" m2 h2 = resolveCadence "@default" m h) ∧
    (∀ t, firesAt m (h % 4) t → firesAt m (h % 4) (t + 240)) ∧
    (∀ t s, firesAt m (h % 4) t → firesAt m (h % 4) s → t < s → t + 240 ≤ s) := by
  refine ⟨by simp [resolveCadence], fun m2 h2 hm hh => by rw [hm, hh], ?_, ?_⟩
  · intro t ht
    obtain ⟨h1, h2⟩ := ht
    exact ⟨by omega, by omega⟩
  · intro t s ht hs hlt
    obtain ⟨h1, h2⟩ := ht
    obtain ⟨h3, h4⟩ := hs
    omega

/-- C5 witness: at minute 30 of hour 10 the default cadence resolves to the
spec with minute field 30 and hour offset 2, and from the firing time 150 the
next firing is exactly at 390 = 150 + 240. -/
theorem resolveCadence_default_witness :
    resolveCadence "@default" 30 10 = some (cronSpecEvery4Hours 30 2) ∧
    firesAt 30 2 390 ∧ 150 + 240 ≤ 390 :=
  ⟨(resolveCadence_default 30 10).1,
   (resolveCadence_default 30 10).2.2.1 150 (by decide),
   (resolveCadence_default 30 10).2.2.2 150 390 (by decide) (by decide) (by decide)⟩

/-- Helper: when the gate is idle and every synchronous discovery step through
the last-checked write succeeds, CheckForUpdates reduces to the post-discovery
handling of the update list. -/
theorem checkForUpdates_sync_ok (env : CheckEnv) (deploy : Bool)
    (st msg : String) (a0 a1 : App) (dir : String) (kk : KotsKinds) (updates : List Update)
    (h1 : env.getTaskStatus = .ok (st, msg)) (h2 : st ≠ "running")
    (h3 : env.clearTaskStatus = .ok ()) (h4 : env.getApp = .ok a0)
    (h5 : env.licenseSync = .ok ()) (h6 : env.getAppReload = .ok a1)
    (h7 : env.tempDir = .ok dir) (h8 : env.getAppVersionArchive = .ok ())
    (h9 : env.loadKotsKinds = .ok kk) (h10 : env.getLatestLicense = .ok ())
    (h11 : env.getUpdates = .ok updates) (h12 : env.lastUpdateAtTime = none) :
    checkForUpdates env deploy =
      handleUpdates env deploy updates
        [.licenseSync, .loadCurrentArchive, .queryUpstream, .writeLastChecked] := by
  unfold checkForUpdates
  rw [h1, h3, h4, h5, h6, h7, h8, h9, h10, h11, h12]
  simp [h2]

/-- C6: the source intends to surface a last-checked write failure as an
error (the message at line 224 reads failed to update last updated at time),
but it wraps the stale nil err from GetUpdates instead of the failure t, and
errors.Wrap of nil is nil; so when the write fails the call aborts and
returns (0, nil): discovery stops (no staging is spawned, even with one
update available) and the caller sees no error. -/
theorem lastChecked_failure_returns_nil_error :
    checkForUpdates
      { envBase with
          getUpdates := .ok [{ cursor := 13 }],
          lastUpdateAtTime := some "db write failed" } true
      = ⟨.ret 0 none,
          [.licenseSync, .loadCurrentArchive, .queryUpstream, .writeLastChecked]⟩ := by
  rfl

/-- C9: when discovery finds zero releases, deploy is set, and the list of
version records is empty, the call returns (0, e) with the non-nil error
no versions found and never initiates a deploy. -/
theorem zero_updates_no_versions_errors (env : CheckEnv) (deploy : Bool)
    (st msg : String) (a0 a1 : App) (dir : String) (kk : KotsKinds)
    (h1 : env.getTaskStatus = .ok (st, msg)) (h2 : st ≠ "running")
    (h3 : env.clearTaskStatus = .ok ()) (h4 : env.getApp = .ok a0)
    (h5 : env.licenseSync = .ok ()) (h6 : env.getAppReload = .ok a1)
    (h7 : env.tempDir = .ok dir) (h8 : env.getAppVersionArchive = .ok ())
    (h9 : env.loadKotsKinds = .ok kk) (h10 : env.getLatestLicense = .ok ())
    (h11 : env.getUpdates = .ok []) (h12 : env.lastUpdateAtTime = none)
    (h13 : deploy = true) (h14 : env.getVersions = .ok []) :
    checkForUpdates env deploy =
      ⟨.ret 0 (some "no versions found"),
        [.licenseSync, .loadCurrentArchive, .queryUpstream, .writeLastChecked, .listVersions]⟩ ∧
    ∀ s, Effect.deployInitiated s ∉ (checkForUpdates env deploy).effects := by
  have hred := checkForUpdates_sync_ok env deploy st msg a0 a1 dir kk []
    h1 h2 h3 h4 h5 h6 h7 h8 h9 h10 h11 h12
  have hres : checkForUpdates env deploy =
      ⟨.ret 0 (some "no versions found"),
        [.licenseSync, .loadCurrentArchive, .queryUpstream, .writeLastChecked, .listVersions]⟩ := by
    rw [hred]
    unfold handleUpdates
    rw [h14]
    simp [h13]
  refine ⟨hres, fun s => ?_⟩
  rw [hres]
  simp

/-- Helper: the last element of a list, when present, is a member. -/
theorem getLast?_mem_appversion :
    ∀ (l : List AppVersion) (v : AppVersion), l.getLast? = some v → v ∈ l := by
  intro l
  induction l with
  | nil => intro v hl; cases hl
  | cons a rest ih =>
    intro v hl
    cases rest with
    | nil =>
      simp only [List.getLast?_singleton, Option.some.injEq] at hl
      simp [hl]
    | cons b t =>
      rw [List.getLast?_cons_cons] at hl
      exact List.mem_cons_of_mem a (ih v hl)

/-- Helper: in a list sorted by ascending sequence, the last element carries
the highest sequence. -/
theorem getLast?_max_of_sorted :
    ∀ (l : List AppVersion) (v : AppVersion),
      l.Pairwise (fun x y => x.sequence ≤ y.sequence) → l.getLast? = some v →
      ∀ w ∈ l, w.sequence ≤ v.sequence := by
  intro l
  induction l with
  | nil => intro v _ hl; cases hl
  | cons a rest ih =>
    intro v hp hl w hw
    obtain ⟨ha, hp2⟩ := List.pairwise_cons.mp hp
    cases rest with
    | nil =>
      simp only [List.getLast?_singleton, Option.some.injEq] at hl
      simp only [List.mem_singleton] at hw
      rw [hw, hl]
    | cons b t =>
      rw [List.getLast?_cons_cons] at hl
      rcases List.mem_cons.mp hw with hwa | hwr
      · rw [hwa]
        exact ha v (getLast?_mem_appversion (b :: t) v hl)
      · exact ih v hp2 hl w hwr

/-- C9 witness: concrete environment with zero releases, deploy set and an
empty version list; the call errors with no versions found and no deploy. -/
theorem zero_updates_no_versions_errors_witness :
    checkForUpdates { envBase with getVersions := .ok [] } true =
      ⟨.ret 0 (some "no versions found"),
        [.licenseSync, .loadCurrentArchive, .queryUpstream, .writeLastChecked, .listVersions]⟩ ∧
    ∀ s, Effect.deployInitiated s ∉ (checkForUpdates { envBase with getVersions := .ok [] } true).effects :=
  zero_updates_no_versions_errors { envBase with getVersions := .ok [] } true
    "" "" appA appA "/tmp/kotsadm" kindsA rfl (by decide) rfl rfl rfl rfl rfl rfl rfl rfl rfl rfl rfl rfl

/-- C3: with zero releases found and deploy set, let v be the last version
record (which under the ascending-sequence ordering of the store is the
highest sequence, final conjunct) and ps the primary downstream parent
sequence. If they are equal no deploy is initiated; if they differ the
effect trace ends with exactly one deploy initiation for v, and when the
deploy initiation succeeds the call returns (0, nil). Any deploy initiation
in the trace is for v and only happens when the sequences differ. -/
theorem zero_updates_deploy_guard (env : CheckEnv) (deploy : Bool)
    (st msg : String) (a0 a1 : App) (dir : String) (kk : KotsKinds)
    (vs : List AppVersion) (v : AppVersion) (d : Downstream) (ds : List Downstream) (ps : Int)
    (h1 : env.getTaskStatus = .ok (st, msg)) (h2 : st ≠ "running")
    (h3 : env.clearTaskStatus = .ok ()) (h4 : env.getApp = .ok a0)
    (h5 : env.licenseSync = .ok ()) (h6 : env.getAppReload = .ok a1)
    (h7 : env.tempDir = .ok dir) (h8 : env.getAppVersionArchive = .ok ())
    (h9 : env.loadKotsKinds = .ok kk) (h10 : env.getLatestLicense = .ok ())
    (h11 : env.getUpdates = .ok []) (h12 : env.lastUpdateAtTime = none)
    (h13 : deploy = true) (h14 : env.getVersions = .ok vs)
    (hsorted : vs.Pairwise (fun x y => x.sequence ≤ y.sequence))
    (hlast : vs.getLast? = some v)
    (h15 : env.listDownstreams = .ok (d :: ds))
    (h16 : env.getCurrentParentSequence = .ok ps) :
    (v.sequence = ps →
      checkForUpdates env deploy =
        ⟨.ret 0 none,
          [.licenseSync, .loadCurrentArchive, .queryUpstream, .writeLastChecked,
            .listVersions, .listDownstreamTargets, .readParentSequence]⟩) ∧
    (v.sequence ≠ ps →
      (checkForUpdates env deploy).effects =
        [.licenseSync, .loadCurrentArchive, .queryUpstream, .writeLastChecked,
          .listVersions, .listDownstreamTargets, .readParentSequence,
          .deployInitiated v.sequence] ∧
      (env.deployVersion = .ok () → (checkForUpdates env deploy).outcome = .ret 0 none)) ∧
    (∀ s, Effect.deployInitiated s ∈ (checkForUpdates env deploy).effects →
      s = v.sequence ∧ v.sequence ≠ ps) ∧
    (∀ w ∈ vs, w.sequence ≤ v.sequence) := by
  have hred := checkForUpdates_sync_ok env deploy st msg a0 a1 dir kk []
    h1 h2 h3 h4 h5 h6 h7 h8 h9 h10 h11 h12
  have hmax := getLast?_max_of_sorted vs v hsorted hlast
  by_cases heq : v.sequence = ps
  · have hres : checkForUpdates env deploy =
        ⟨.ret 0 none,
          [.licenseSync, .loadCurrentArchive, .queryUpstream, .writeLastChecked,
            .listVersions, .listDownstreamTargets, .readParentSequence]⟩ := by
      rw [hred]
      unfold handleUpdates
      rw [h14, h15, h16]
      simp [h13, hlast, heq]
    refine ⟨fun _ => hres, fun hne => absurd heq hne, fun s hs => ?_, hmax⟩
    rw [hres] at hs
    simp at hs
  · cases hdv : env.deployVersion with
    | ok u =>
      have hres : checkForUpdates env deploy =
          ⟨.ret 0 none,
            [.licenseSync, .loadCurrentArchive, .queryUpstream, .writeLastChecked,
              .listVersions, .listDownstreamTargets, .readParentSequence,
              .deployInitiated v.sequence]⟩ := by
        rw [hred]
        unfold handleUpdates
        rw [h14, h15, h16, hdv]
        simp [h13, hlast, heq]
      refine ⟨fun h => absurd h heq, fun _ => ⟨by rw [hres], fun _ => by rw [hres]⟩,
        fun s hs => ?_, hmax⟩
      rw [hres] at hs
      simp at hs
      exact ⟨hs, heq⟩
    | err e =>
      have hres : checkForUpdates env deploy =
          ⟨.ret 0 (errWrap (some e) "failed to deploy latest version"),
            [.licenseSync, .loadCurrentArchive, .queryUpstream, .writeLastChecked,
              .listVersions, .listDownstreamTargets, .readParentSequence,
              .deployInitiated v.sequence]⟩ := by
        rw [hred]
        unfold handleUpdates
        rw [h14, h15, h16, hdv]
        simp [h13, hlast, heq]
      refine ⟨fun h => absurd h heq,
        fun _ => ⟨by rw [hres], fun hok => by simp [hdv] at hok⟩,
        fun s hs => ?_, hmax⟩
      rw [hres] at hs
      simp at hs
      exact ⟨hs, heq⟩

/-- C3 witness: concrete environments. With parent sequence equal to the
highest sequence 3 no deploy happens; with parent sequence 2 behind the
highest sequence 3, a single deploy initiation for sequence 3 occurs and the
call returns (0, nil). -/
theorem zero_updates_deploy_guard_witness :
    checkForUpdates envBase true =
      ⟨.ret 0 none,
        [.licenseSync, .loadCurrentArchive, .queryUpstream, .writeLastChecked,
          .listVersions, .listDownstreamTargets, .readParentSequence]⟩ ∧
    (checkForUpdates { envBase with getCurrentParentSequence := .ok 2 } true).effects =
      [.licenseSync, .loadCurrentArchive, .queryUpstream, .writeLastChecked,
        .listVersions, .listDownstreamTargets, .readParentSequence,
        .deployInitiated 3] ∧
    (checkForUpdates { envBase with getCurrentParentSequence := .ok 2 } true).outcome =
      .ret 0 none :=
  ⟨(zero_updates_deploy_guard envBase true "" "" appA appA "/tmp/kotsadm" kindsA
      [{ sequence := 3 }] { sequence := 3 } { clusterID := "cluster-1" } [] 3
      rfl (by decide) rfl rfl rfl rfl rfl rfl rfl rfl rfl rfl rfl rfl
      (by simp) rfl rfl rfl).1 rfl,
   ((zero_updates_deploy_guard { envBase with getCurrentParentSequence := .ok 2 } true
      "" "" appA appA "/tmp/kotsadm" kindsA
      [{ sequence := 3 }] { sequence := 3 } { clusterID := "cluster-1" } [] 2
      rfl (by decide) rfl rfl rfl rfl rfl rfl rfl rfl rfl rfl rfl rfl
      (by simp) rfl rfl rfl).2.1 (by decide)).1,
   (((zero_updates_deploy_guard { envBase with getCurrentParentSequence := .ok 2 } true
      "" "" appA appA "/tmp/kotsadm" kindsA
      [{ sequence := 3 }] { sequence := 3 } { clusterID := "cluster-1" } [] 2
      rfl (by decide) rfl rfl rfl rfl rfl rfl rfl rfl rfl rfl rfl rfl
      (by simp) rfl rfl rfl).2.1 (by decide)).2 rfl)⟩

/-- Helper: every run of CheckForUpdates either leaves no set-to-running
effect in its trace, or returns with a nil error. Proved by exhausting every
branch of the embedded control flow. -/
theorem checkForUpdates_gate_cases (env : CheckEnv) (deploy : Bool) :
    (∀ k, Effect.setTaskRunning k ∉ (checkForUpdates env deploy).effects) ∨
    (∃ n, (checkForUpdates env deploy).outcome = .ret n none) := by
  unfold checkForUpdates handleUpdates
  repeat' split
  all_goals first
    | (right; exact ⟨_, rfl⟩)
    | (left; intro k; simp)

/-- C7: whenever CheckForUpdates returns a non-nil error, that call has not
set the shared update-download status to running: its effect trace contains
no set-to-running event, because the running status is only persisted after
at least one release was found, on a path that then returns a nil error. -/
theorem sync_error_gate_not_set (env : CheckEnv) (deploy : Bool) (n : Int) (e : String)
    (h : (checkForUpdates env deploy).outcome = .ret n (some e)) :
    ∀ k, Effect.setTaskRunning k ∉ (checkForUpdates env deploy).effects := by
  rcases checkForUpdates_gate_cases env deploy with hL | ⟨m, hR⟩
  · exact hL
  · rw [h] at hR
    simp at hR

/-- C7 witness: a concrete call that fails at the upstream query returns a
non-nil error and its trace has no set-to-running event. -/
theorem sync_error_gate_not_set_witness :
    Effect.setTaskRunning 1 ∉
      (checkForUpdates { envBase with getUpdates := .err "upstream unreachable" } true).effects :=
  sync_error_gate_not_set { envBase with getUpdates := .err "upstream unreachable" } true
    0 "failed to get updates: upstream unreachable" rfl 1

/-- C10: in the zero-releases deploy path the source reads downstreams[0]
with no emptiness check. When the store returns no downstream targets the
call hits the out-of-bounds index (a Go runtime panic); when it returns at
least one target that access cannot fault. So the access is total exactly
under the precondition that the app has at least one downstream target. -/
theorem downstream_index_unchecked (env : CheckEnv) (deploy : Bool)
    (st msg : String) (a0 a1 : App) (dir : String) (kk : KotsKinds)
    (vs : List AppVersion) (v : AppVersion)
    (h1 : env.getTaskStatus = .ok (st, msg)) (h2 : st ≠ "running")
    (h3 : env.clearTaskStatus = .ok ()) (h4 : env.getApp = .ok a0)
    (h5 : env.licenseSync = .ok ()) (h6 : env.getAppReload = .ok a1)
    (h7 : env.tempDir = .ok dir) (h8 : env.getAppVersionArchive = .ok ())
    (h9 : env.loadKotsKinds = .ok kk) (h10 : env.getLatestLicense = .ok ())
    (h11 : env.getUpdates = .ok []) (h12 : env.lastUpdateAtTime = none)
    (h13 : deploy = true) (h14 : env.getVersions = .ok vs)
    (hlast : vs.getLast? = some v) :
    (env.listDownstreams = .ok [] →
      (checkForUpdates env deploy).outcome = .indexOutOfRange) ∧
    (∀ d ds, env.listDownstreams = .ok (d :: ds) →
      (checkForUpdates env deploy).outcome ≠ .indexOutOfRange) := by
  have hred := checkForUpdates_sync_ok env deploy st msg a0 a1 dir kk []
    h1 h2 h3 h4 h5 h6 h7 h8 h9 h10 h11 h12
  constructor
  · intro hds
    rw [hred]
    unfold handleUpdates
    rw [h14, hds]
    simp [h13, hlast]
  · intro d ds hds
    rw [hred]
    unfold handleUpdates
    rw [h14, hds]
    cases hps : env.getCurrentParentSequence with
    | err e => simp [h13, hlast]
    | ok ps =>
      by_cases heq : v.sequence = ps
      · simp [h13, hlast, heq]
      · cases hdv : env.deployVersion with
        | err e => simp [h13, hlast, heq, hdv]
        | ok u => simp [h13, hlast, heq, hdv]

/-- C10 witness: with a concrete environment whose downstream list is empty
the zero-releases deploy path faults on the index; with the baseline single
downstream it does not. -/
theorem downstream_index_unchecked_witness :
    (checkForUpdates { envBase with listDownstreams := .ok [] } true).outcome =
      .indexOutOfRange ∧
    (checkForUpdates envBase true).outcome ≠ .indexOutOfRange :=
  ⟨(downstream_index_unchecked { envBase with listDownstreams := .ok [] } true
      "" "" appA appA "/tmp/kotsadm" kindsA [{ sequence := 3 }] { sequence := 3 }
      rfl (by decide) rfl rfl rfl rfl rfl rfl rfl rfl rfl rfl rfl rfl rfl).1 rfl,
   (downstream_index_unchecked envBase true
      "" "" appA appA "/tmp/kotsadm" kindsA [{ sequence := 3 }] { sequence := 3 }
      rfl (by decide) rfl rfl rfl rfl rfl rfl rfl rfl rfl rfl rfl rfl rfl).2
      { clusterID := "cluster-1" } [] rfl⟩

/-- Helper: the pipeline attempts a download for every release of the batch,
in batch order, whatever the download results are. -/
theorem downloadAttempts_stagingLoopAux (total : Nat) (deploy : Bool)
    (download : Nat → Res Int) :
    ∀ (rest : List Update) (i : Nat),
      downloadAttempts (stagingLoopAux total deploy download i rest) =
        rest.map Update.cursor := by
  intro rest
  induction rest with
  | nil => intro i; rfl
  | cons u t ih =>
    intro i
    unfold stagingLoopAux
    cases download i with
    | err e => simp [downloadAttempts, ih]
    | ok seq =>
      by_cases hc : deploy = true ∧ i = total - 1
      · simp only [if_pos hc, downloadAttempts, ih, List.map_cons]
      · simp only [if_neg hc, downloadAttempts, ih, List.map_cons]

/-- Helper: a deploy event in the pipeline trace can only come from the
final index, with the deploy flag set and that download successful. -/
theorem deployAttempt_mem_stagingLoopAux (total : Nat) (deploy : Bool)
    (download : Nat → Res Int) (s : Int) :
    ∀ (rest : List Update) (i : Nat), i + rest.length = total →
      PipeEffect.deployAttempt s ∈ stagingLoopAux total deploy download i rest →
      deploy = true ∧ 0 < total ∧ download (total - 1) = .ok s := by
  intro rest
  induction rest with
  | nil =>
    intro i _ hmem
    simp [stagingLoopAux] at hmem
  | cons u t ih =>
    intro i hlen hmem
    have hlen2 : i + 1 + t.length = total := by simp at hlen; omega
    unfold stagingLoopAux at hmem
    split at hmem
    next e heq =>
      simp only [List.mem_cons] at hmem
      rcases hmem with hx | hx | hx
      · cases hx
      · cases hx
      · exact ih (i + 1) hlen2 hx
    next seq heq =>
      split at hmem
      next hc =>
        simp only [List.mem_cons] at hmem
        rcases hmem with hx | hx | hx | hx
        · cases hx
        · cases hx
          refine ⟨hc.1, by simp at hlen; omega, ?_⟩
          rw [← hc.2]
          exact heq
        · cases hx
        · exact ih (i + 1) hlen2 hx
      next hc =>
        simp only [List.mem_cons] at hmem
        rcases hmem with hx | hx
        · cases hx
        · exact ih (i + 1) hlen2 hx

/-- Helper: when the flag is set, the batch is non-empty and the download of
its final release succeeds with sequence s, the deploy event for s occurs. -/
theorem deployAttempt_mem_of_last_ok (total : Nat) (deploy : Bool)
    (download : Nat → Res Int) (s : Int) :
    ∀ (rest : List Update) (i : Nat), i + rest.length = total → rest ≠ [] →
      deploy = true → download (total - 1) = .ok s →
      PipeEffect.deployAttempt s ∈ stagingLoopAux total deploy download i rest := by
  intro rest
  induction rest with
  | nil => intro i _ hne; exact absurd rfl hne
  | cons u t ih =>
    intro i hlen _ hd hdl
    unfold stagingLoopAux
    cases t with
    | nil =>
      have hi : i = total - 1 := by simp at hlen; omega
      have hdl0 : download i = .ok s := by rw [hi]; exact hdl
      rw [hdl0]
      simp [hd, hi]
    | cons v t2 =>
      have hlen2 : i + 1 + (v :: t2).length = total := by simp at hlen ⊢; omega
      have hmem := ih (i + 1) hlen2 (by simp) hd hdl
      split
      next e heq => simp only [List.mem_cons]; exact Or.inr (Or.inr hmem)
      next seq heq =>
        split
        next hc =>
          simp only [List.mem_cons]
          exact Or.inr (Or.inr (Or.inr hmem))
        next hc =>
          simp only [List.mem_cons]
          exact Or.inr hmem

/-- Helper: at most one deploy event occurs in a pipeline trace, since the
deploy branch only fires at the final index, after which the loop ends. -/
theorem deploy_count_stagingLoopAux (total : Nat) (deploy : Bool)
    (download : Nat → Res Int) :
    ∀ (rest : List Update) (i : Nat), i + rest.length = total →
      (stagingLoopAux total deploy download i rest).countP isDeployAttempt ≤ 1 := by
  intro rest
  induction rest with
  | nil => intro i _; simp [stagingLoopAux]
  | cons u t ih =>
    intro i hlen
    have hlen2 : i + 1 + t.length = total := by simp at hlen; omega
    unfold stagingLoopAux
    split
    next e heq =>
      have hrec := ih (i + 1) hlen2
      simpa [List.countP_cons, isDeployAttempt] using hrec
    next seq heq =>
      split
      next hc =>
        have ht : t = [] := by
          have hz : t.length = 0 := by simp at hlen; omega
          exact List.eq_nil_of_length_eq_zero hz
        subst ht
        simp [stagingLoopAux, List.countP_cons, isDeployAttempt]
      next hc =>
        have hrec := ih (i + 1) hlen2
        simpa [List.countP_cons, isDeployAttempt] using hrec

/-- Helper: a failed download at index i + j of the batch leaves a logged
download error for that release in the trace, and the loop continues. -/
theorem logDownloadError_mem_stagingLoopAux (total : Nat) (deploy : Bool)
    (download : Nat → Res Int) :
    ∀ (rest : List Update) (i j : Nat) (hj : j < rest.length) (e : String),
      download (i + j) = .err e →
      PipeEffect.logDownloadError (rest.get ⟨j, hj⟩).cursor ∈
        stagingLoopAux total deploy download i rest := by
  intro rest
  induction rest with
  | nil => intro i j hj; exact absurd hj (by simp)
  | cons u t ih =>
    intro i j hj e hdl
    unfold stagingLoopAux
    cases j with
    | zero =>
      have hdl0 : download i = .err e := by simpa using hdl
      rw [hdl0]
      simp
    | succ j2 =>
      have hj2 : j2 < t.length := by simpa using hj
      have hdl2 : download (i + 1 + j2) = .err e := by
        have harith : i + 1 + j2 = i + (j2 + 1) := by omega
        rw [harith]
        exact hdl
      have hmem := ih (i + 1) j2 hj2 e hdl2
      split
      next e2 heq => simp only [List.mem_cons]; exact Or.inr (Or.inr hmem)
      next seq heq =>
        split
        next hc =>
          simp only [List.mem_cons]
          exact Or.inr (Or.inr (Or.inr hmem))
        next hc =>
          simp only [List.mem_cons]
          exact Or.inr hmem

/-- C2: the detached staging pipeline processes a batch strictly in batch
order (the download attempts are exactly the cursors of the batch in order,
so a failure never blocks a later release); every failed download is logged;
a deploy event can only arise from the final release of the batch wi
the deploy flag set and that final download successful, and conversely then
occurs; and at most one deploy event ever occurs. -/
theorem staging_pipeline_order_and_deploy (updates : List Update) (deploy : Bool)
    (download : Nat → Res Int) :
    downloadAttempts (stagingPipeline updates deploy download) =
      updates.map Update.cursor ∧
    (∀ (j : Nat) (hj : j < updates.length) (e : String), download j = .err e →
      PipeEffect.logDownloadError (updates.get ⟨j, hj⟩).cursor ∈
        stagingPipeline updates deploy download) ∧
    (∀ s, PipeEffect.deployAttempt s ∈ stagingPipeline updates deploy download →
      deploy = true ∧ updates ≠ [] ∧ download (updates.length - 1) = .ok s) ∧
    (∀ s, deploy = true → updates ≠ [] → download (updates.length - 1) = .ok s →
      PipeEffect.deployAttempt s ∈ stagingPipeline updates deploy download) ∧
    (stagingPipeline updates deploy download).countP isDeployAttempt ≤ 1 := by
  refine ⟨downloadAttempts_stagingLoopAux updates.length deploy download updates 0,
    ?_, ?_, ?_, deploy_count_stagingLoopAux updates.length deploy download updates 0 (by simp)⟩
  · intro j hj e hdl
    exact logDownloadError_mem_stagingLoopAux updates.length deploy download updates 0 j hj e
      (by simpa using hdl)
  · intro s hmem
    have := deployAttempt_mem_stagingLoopAux updates.length deploy download s updates 0
      (by simp) hmem
    refine ⟨this.1, ?_, this.2.2⟩
    intro hnil
    rw [hnil] at this
    simp at this
  · intro s hd hne hdl
    exact deployAttempt_mem_of_last_ok updates.length deploy download s updates 0
      (by simp) hne hd hdl

/-- Concrete three-release batch for the pipeline witness. -/
def updatesW : List Update := [{ cursor := 1 }, { cursor := 2 }, { cursor := 3 }]

/-- Concrete download oracle: the first release fails, later ones succeed
with ascending sequences. -/
def downloadW : Nat → Res Int :=
  fun j => if j = 0 then .err "network unreachable" else .ok (Int.ofNat (10 + j))

/-- C2 witness: with the first of three releases failing, all three downloads
are attempted in order, the failure is logged, deploy fires exactly for the
final release sequence 12, and only once. -/
theorem staging_pipeline_order_and_deploy_witness :
    downloadAttempts (stagingPipeline updatesW true downloadW) = [1, 2, 3] ∧
    PipeEffect.logDownloadError 1 ∈ stagingPipeline updatesW true downloadW ∧
    PipeEffect.deployAttempt 12 ∈ stagingPipeline updatesW true downloadW ∧
    (stagingPipeline updatesW true downloadW).countP isDeployAttempt ≤ 1 :=
  ⟨(staging_pipeline_order_and_deploy updatesW true downloadW).1,
   (staging_pipeline_order_and_deploy updatesW true downloadW).2.1 0 (by decide)
     "network unreachable" (by decide),
   (staging_pipeline_order_and_deploy updatesW true downloadW).2.2.2.1 12 rfl (by decide)
     (by decide),
   (staging_pipeline_order_and_deploy updatesW true downloadW).2.2.2.2⟩

/-- Helper: Stop leaves a key that holds no job holding no job. -/
theorem Stop_jobs_none (appID : String) (st : JobsState) (k : String)
    (hnone : st.jobs k = none) : (Stop appID st).jobs k = none := by
  unfold Stop
  split
  next job hj =>
    show updateJobs st.jobs appID { job with running := false } k = none
    unfold updateJobs
    split
    next heqk =>
      rw [heqk] at hnone
      rw [hnone] at hj
      cases hj
    next => exact hnone
  next => exact hnone

/-- Helper: a Configure call whose app is either keyed elsewhere or disabled
cannot create a job under key k where none existed. -/
theorem Configure_preserves_none (env : ConfigureEnv) (i : String) (st : JobsState) (k : String)
    (hnone : st.jobs k = none)
    (h : ∀ r, env.getApp i = .ok r →
      r.id ≠ k ∨ r.updateCheckerSpec = "@never" ∨ r.updateCheckerSpec = "") :
    (Configure env i st).1.jobs k = none := by
  unfold Configure
  cases hg : env.getApp i with
  | err e => exact hnone
  | ok r =>
    by_cases hag : r.isAirgap = true
    · simp only [hag, if_true]
      exact hnone
    · simp only [hag]
      rcases h r hg with hne | hdis
      · cases hrc : resolveCadence r.updateCheckerSpec env.minute env.hour with
        | none =>
          simp only []
          exact Stop_jobs_none r.id st k hnone
        | some spec =>
          simp only []
          cases hj : st.jobs r.id with
          | some job =>
            by_cases hv : env.specValid spec = true
            · simp only [hv, if_true]
              show updateJobs (updateJobs st.jobs r.id _) r.id _ k = none
              unfold updateJobs
              split
              next heqk => exact absurd heqk.symm hne
              next => exact hnone
            · simp only [hv]
              show updateJobs st.jobs r.id _ k = none
              unfold updateJobs
              split
              next heqk => exact absurd heqk.symm hne
              next => exact hnone
          | none =>
            by_cases hv : env.specValid spec = true
            · simp only [hv, if_true]
              show updateJobs st.jobs r.id _ k = none
              unfold updateJobs
              split
              next heqk => exact absurd heqk.symm hne
              next => exact hnone
            · simp only [hv]
              exact hnone
      · have hrc : resolveCadence r.updateCheckerSpec env.minute env.hour = none := by
          rcases hdis with h1 | h1 <;> simp [resolveCadence, h1]
        rw [hrc]
        exact Stop_jobs_none r.id st k hnone

/-- Helper: Start never creates a job for a key under which every listed app
is either keyed elsewhere or disabled. -/
theorem startChecker_preserves_none (env : ConfigureEnv) (k : String) :
    ∀ (appsList : List App) (st : JobsState), st.jobs k = none →
      (∀ b ∈ appsList, ∀ r, env.getApp b.id = .ok r →
        r.id ≠ k ∨ r.updateCheckerSpec = "@never" ∨ r.updateCheckerSpec = "") →
      (startChecker env appsList st).jobs k = none := by
  intro appsList
  induction appsList with
  | nil => intro st h _; exact h
  | cons b t ih =>
    intro st h hall
    show (startChecker env t (if b.isAirgap = true then st
      else (Configure env b.id st).1)).jobs k = none
    by_cases hag : b.isAirgap = true
    · rw [if_pos hag]
      exact ih st h (fun c hc => hall c (List.mem_cons_of_mem b hc))
    · rw [if_neg hag]
      exact ih (Configure env b.id st).1
        (Configure_preserves_none env b.id st k h (hall b (List.mem_cons_self b t)))
        (fun c hc => hall c (List.mem_cons_of_mem b hc))

/-- C8: for an app with a disabled cadence, Configure calls Stop and returns
nil: a stored job loses its running flag but gains no trigger entry, and a
key with no stored job stays without one; consequently an app configured as
disabled at Start acquires no trigger at all, whatever else Start
configures, as long as no listed app resolves to its key with an enabled
cadence. -/
theorem configure_disabled_stops (env : ConfigureEnv) (appID : String) (a : App)
    (st : JobsState)
    (hget : env.getApp appID = .ok a) (hair : a.isAirgap = false)
    (hspec : a.updateCheckerSpec = "@never" ∨ a.updateCheckerSpec = "") :
    Configure env appID st = (Stop a.id st, none) ∧
    (st.jobs a.id = none → (Configure env appID st).1.jobs a.id = none) ∧
    (∀ job, st.jobs a.id = some job →
      (Configure env appID st).1.jobs a.id = some { job with running := false }) ∧
    (∀ (appsList : List App) (st0 : JobsState), st0.jobs a.id = none →
      (∀ b ∈ appsList, ∀ r, env.getApp b.id = .ok r →
        r.id ≠ a.id ∨ r.updateCheckerSpec = "@never" ∨ r.updateCheckerSpec = "") →
      (startChecker env appsList st0).jobs a.id = none) := by
  have hrc : resolveCadence a.updateCheckerSpec env.minute env.hour = none := by
    rcases hspec with h1 | h1 <;> simp [resolveCadence, h1]
  have hconf : Configure env appID st = (Stop a.id st, none) := by
    unfold Configure
    rw [hget]
    simp [hair, hrc]
  refine ⟨hconf, ?_, ?_, ?_⟩
  · intro hnone
    rw [hconf]
    exact Stop_jobs_none a.id st a.id hnone
  · intro job hjob
    rw [hconf]
    show (Stop a.id st).jobs a.id = some { job with running := false }
    unfold Stop
    rw [hjob]
    show updateJobs st.jobs a.id { job with running := false } a.id = _
    unfold updateJobs
    simp
  · intro appsList st0 hnone hall
    exact startChecker_preserves_none env a.id appsList st0 hnone hall

/-- Empty scheduler state for the witnesses. -/
def stEmpty : JobsState := { jobs := fun _ => none, nextObjId := 0 }

/-- A disabled app for the C8 witness. -/
def appNever : App :=
  { id := "app-2", slug := "quiet-app", isAirgap := false,
    updateCheckerSpec := "@never", currentSequence := 1 }

/-- Configure oracle for the witnesses: the store resolves each id and every
spec parses. -/
def cfgEnvW : ConfigureEnv :=
  { getApp := fun i => if i = "app-2" then .ok appNever
      else if i = "app-1" then .ok appA else .err "app not found",
    minute := 30, hour := 10,
    specValid := fun _ => true }

/-- C8 witness: configuring the disabled app from the empty state installs
nothing and returns nil, and Start over the one-app list leaves it without a
trigger. -/
theorem configure_disabled_stops_witness :
    Configure cfgEnvW "app-2" stEmpty = (Stop "app-2" stEmpty, none) ∧
    (Configure cfgEnvW "app-2" stEmpty).1.jobs "app-2" = none ∧
    (startChecker cfgEnvW [appNever] stEmpty).jobs "app-2" = none :=
  ⟨(configure_disabled_stops cfgEnvW "app-2" appNever stEmpty rfl rfl (Or.inl rfl)).1,
   (configure_disabled_stops cfgEnvW "app-2" appNever stEmpty rfl rfl (Or.inl rfl)).2.1 rfl,
   (configure_disabled_stops cfgEnvW "app-2" appNever stEmpty rfl rfl (Or.inl rfl)).2.2.2
     [appNever] stEmpty rfl
     (fun b hb r hr => by
       simp at hb
       subst hb
       simp [cfgEnvW, appNever] at hr
       subst hr
       exact Or.inr (Or.inl rfl))⟩

/-- C4: for a non-disabled cadence, two Configure calls in a row leave the
app with exactly one active trigger entry: the first call leaves a job with
one entry, the second removes every entry of the stored job before installing
the single fresh entry (its id is the job counter after the first call, so no
old entry survives), and the second call keeps the same underlying job object
(equal objId) and returns nil. -/
theorem configure_twice_single_entry (env1 env2 : ConfigureEnv) (appID : String) (a : App)
    (st0 : JobsState) (spec1 spec2 : String)
    (hget1 : env1.getApp appID = .ok a) (hget2 : env2.getApp appID = .ok a)
    (hair : a.isAirgap = false)
    (hres1 : resolveCadence a.updateCheckerSpec env1.minute env1.hour = some spec1)
    (hres2 : resolveCadence a.updateCheckerSpec env2.minute env2.hour = some spec2)
    (hval1 : env1.specValid spec1 = true) (hval2 : env2.specValid spec2 = true) :
    ∃ j1 j2,
      (Configure env1 appID st0).1.jobs a.id = some j1 ∧
      (Configure env2 appID (Configure env1 appID st0).1).1.jobs a.id = some j2 ∧
      j1.entries.length = 1 ∧
      j2.entries = [{ entryId := j1.nextId, spec := spec2 }] ∧
      j2.objId = j1.objId ∧
      (Configure env2 appID (Configure env1 appID st0).1).2 = none := by
  cases hj0 : st0.jobs a.id with
  | none =>
    refine ⟨{ objId := st0.nextObjId, entries := [{ entryId := 0, spec := spec1 }], nextId := 1, running := true }, { objId := st0.nextObjId, entries := [{ entryId := 1, spec := spec2 }], nextId := 2, running := true }, ?_, ?_, ?_, ?_, ?_, ?_⟩ <;>
      simp [Configure, hget1, hget2, hair, hres1, hres2, hval1, hval2, hj0, updateJobs]
  | some job0 =>
    refine ⟨{ objId := job0.objId, entries := [{ entryId := job0.nextId, spec := spec1 }], nextId := job0.nextId + 1, running := true }, { objId := job0.objId, entries := [{ entryId := job0.nextId + 1, spec := spec2 }], nextId := job0.nextId + 2, running := true }, ?_, ?_, ?_, ?_, ?_, ?_⟩ <;>
      simp [Configure, hget1, hget2, hair, hres1, hres2, hval1, hval2, hj0, updateJobs]

/-- C4 witness: configuring the concrete hourly app twice from the empty
state leaves one job with exactly one entry, on the same underlying object,
and the second call returns nil. -/
theorem configure_twice_single_entry_witness :
    ∃ j1 j2,
      (Configure cfgEnvW "app-1" stEmpty).1.jobs appA.id = some j1 ∧
      (Configure cfgEnvW "app-1" (Configure cfgEnvW "app-1" stEmpty).1).1.jobs appA.id = some j2 ∧
      j1.entries.length = 1 ∧
      j2.entries = [{ entryId := j1.nextId, spec := "0 0 * * *" }] ∧
      j2.objId = j1.objId ∧
      (Configure cfgEnvW "app-1" (Configure cfgEnvW "app-1" stEmpty).1).2 = none :=
  configure_twice_single_entry cfgEnvW cfgEnvW "app-1" appA stEmpty "0 0 * * *" "0 0 * * *"
    (by decide) (by decide) rfl (by decide) (by decide) rfl rfl
